import Mathlib

/-!
Verification of the photo-restoration orchestration core.

The development shallowly embeds the two source modules:
* `types.ts` and `services/geminiService.ts` — the data model and the three
  Gateway-response handlers `generateRestorationPlan`, `generateStepPrompt`,
  `executeImageStep`;
* `App.tsx` — the `handleRestore` orchestration loop, `resetState` and the
  lazy client construction of `getAiClient`.

Remote calls are modelled by passing the already-received Gateway responses
as explicit arguments. The output of `JSON.parse` is modelled by the `Json`
inductive, with `none` standing for a parse failure. React `setXxx` state
updates are modelled as an emitted list of `Event`s that `finalState` folds
into an `AppState`.
-/

/-- Record `PlanStep` from types.ts. -/
structure PlanStep where
  step : Int
  goal : String
deriving DecidableEq, Repr

/-- Record `RestorationStep` from types.ts. -/
structure RestorationStep where
  step : Int
  goal : String
  prompt : String
  beforeImage : String
  afterImage : String
deriving DecidableEq, Repr

/-- Enumeration `AppStatus` from types.ts. -/
inductive AppStatus where
  | idle
  | planning
  | restoring
  | done
  | error
deriving DecidableEq, Repr

/-- Parsed JSON values: the possible outputs of `JSON.parse`. -/
inductive Json where
  | null
  | bool (b : Bool)
  | num (n : Int)
  | str (s : String)
  | arr (elems : List Json)
  | obj (fields : List (String × Json))

/-- JS object field lookup on a parsed object. -/
def lookupField : List (String × Json) → String → Option Json
  | [], _ => none
  | (k, v) :: rest, key => if k = key then some v else lookupField rest key

/-- The message of the error thrown by `generateRestorationPlan`
(geminiService.ts line 92); both a `JSON.parse` failure and a failed shape
check land in the same catch block, so there is a single message. -/
def planErrorMessage : String :=
  "Could not generate a valid restoration plan. The AI's response was not in the expected format."

/-- Function `generateRestorationPlan` (geminiService.ts lines 84-93), modelled from
the point where the Gateway response text has been received: `parsed` is the
result of `JSON.parse(response.text)`, with `none` standing for a parse
failure. The code checks only `Array.isArray(plan) && plan.length > 0` and
returns the raw elements, cast to `PlanStep[]` without any shape
validation. -/
def generateRestorationPlan (parsed : Option Json) : Except String (List Json) :=
  match parsed with
  | some (Json.arr elems) =>
      if elems.length > 0 then Except.ok elems else Except.error planErrorMessage
  | _ => Except.error planErrorMessage

/-- The TypeError raised by `response.text.trim()` when the SDK getter
`response.text` returns undefined. -/
def trimTypeErrorMessage : String :=
  "TypeError: Cannot read properties of undefined (reading trim)"

/-- Drop leading whitespace characters. -/
def trimLeading : List Char → List Char
  | [] => []
  | c :: rest => if c.isWhitespace then trimLeading rest else c :: rest

/-- JS `String.prototype.trim`: whitespace stripped from both ends
(character-level model, so that it evaluates). -/
def jsTrim (s : String) : String :=
  String.mk ((trimLeading (trimLeading s.data).reverse).reverse)

/-- Function `generateStepPrompt` (geminiService.ts lines 96-114), modelled from the
point where the Gateway response has been received: `responseText` is
`response.text` (`none` = the getter returned undefined). The code performs
no validation: it returns `response.text.trim()` directly. -/
def generateStepPrompt (responseText : Option String) : Except String String :=
  match responseText with
  | none => Except.error trimTypeErrorMessage
  | some s => Except.ok (jsTrim s)

/-- One part of a Gateway response candidate's content: either a text part
or an inline image payload. -/
inductive RespPart where
  | textPart (s : String)
  | inlineDataPart (data : String)
deriving DecidableEq, Repr

/-- A candidate's content; `parts` may be absent in the SDK response. -/
structure Content where
  parts : Option (List RespPart)
deriving DecidableEq, Repr

/-- One response candidate; `content` may be absent. -/
structure Candidate where
  content : Option Content
deriving DecidableEq, Repr

/-- The message of the error thrown by `executeImageStep`
(geminiService.ts line 134). -/
def editErrorMessage : String :=
  "Image generation failed or did not return an image."

/-- The TypeError raised by `parts[0]` when `parts` itself is undefined:
in `response.candidates?.[0]?.content?.parts[0]` the index access on
`parts` is not guarded by the optional chain. -/
def partsIndexTypeErrorMessage : String :=
  "TypeError: Cannot read properties of undefined (reading 0)"

/-- Function `executeImageStep` (geminiService.ts lines 116-135), modelled from the
point where the Gateway response has been received: `candidates` is
`response.candidates` (`none` = absent). The code examines only
`candidates?.[0]?.content?.parts[0]`: the optional chain short-circuits to
undefined when `candidates`, `candidates[0]` or `content` is missing, but an
undefined `parts` raises a TypeError because its index access is unguarded.
Only the first part of the first candidate is ever inspected. -/
def executeImageStep (candidates : Option (List Candidate)) : Except String String :=
  match candidates with
  | none => Except.error editErrorMessage
  | some cs =>
    match cs.head? with
    | none => Except.error editErrorMessage
    | some c =>
      match c.content with
      | none => Except.error editErrorMessage
      | some ct =>
        match ct.parts with
        | none => Except.error partsIndexTypeErrorMessage
        | some ps =>
          match ps.head? with
          | some (RespPart.inlineDataPart d) => Except.ok ("data:image/png;base64," ++ d)
          | _ => Except.error editErrorMessage

/-- An inline-data request part sent to the Gateway. -/
structure InlineData where
  data : String
  mimeType : String
deriving DecidableEq, Repr

/-- The TS default value of the `mimeType` parameter of
`base64ToGenerativePart` (geminiService.ts line 40). -/
def defaultMimeType : String := "image/png"

/-- The characters after the first comma, up to the following comma:
JS `s.split(',')[1]`, with `none` for a comma-free string (undefined). -/
def charsAfterComma : List Char → Option (List Char)
  | [] => none
  | c :: rest =>
    if c = ',' then some (rest.takeWhile (fun d => d != ','))
    else charsAfterComma rest

/-- JS `s.split(',')[1]` on a data URL (character-level model). A comma-free
string gives undefined in JS; that edge renders as `""` here (no claim
depends on it). -/
def base64Payload (s : String) : String :=
  match charsAfterComma s.data with
  | some cs => String.mk cs
  | none => ""

/-- Function `base64ToGenerativePart` (geminiService.ts lines 40-47). -/
def base64ToGenerativePart (base64Data : String) (mimeType : String) : InlineData :=
  { data := base64Payload base64Data, mimeType := mimeType }

/-- Function `fileToGenerativePart` (geminiService.ts lines 26-38): the originally
uploaded file is sent with its own declared type `file.type`. -/
def fileToGenerativePart (fileDataUrl fileType : String) : InlineData :=
  { data := base64Payload fileDataUrl, mimeType := fileType }

/-- The image request part built by `generateStepPrompt` at line 97:
`base64ToGenerativePart(currentImageBase64)`, using the default media
type. -/
def stepPromptImagePart (currentImageBase64 : String) : InlineData :=
  base64ToGenerativePart currentImageBase64 defaultMimeType

/-- The image request part built by `executeImageStep` at line 117:
`base64ToGenerativePart(currentImageBase64)`, using the default media
type. -/
def imageEditImagePart (currentImageBase64 : String) : InlineData :=
  base64ToGenerativePart currentImageBase64 defaultMimeType

/-- The React component state of App.tsx that `handleRestore`, `resetState`
and their observers touch. The image file is abstracted to its name. -/
structure AppState where
  imageFile : Option String
  imagePreview : Option String
  userPrompt : String
  status : AppStatus
  error : Option String
  restorationSteps : List RestorationStep
  progressMessage : String
deriving DecidableEq, Repr

/-- One React state update issued by the code (a `setXxx` call). -/
inductive Event where
  | setStatus (s : AppStatus)
  | setError (e : Option String)
  | setSteps (steps : List RestorationStep)
  | setProgress (m : String)
deriving DecidableEq, Repr

/-- Apply one state update. -/
def applyEvent (st : AppState) : Event → AppState
  | Event.setStatus s => { st with status := s }
  | Event.setError e => { st with error := e }
  | Event.setSteps l => { st with restorationSteps := l }
  | Event.setProgress m => { st with progressMessage := m }

/-- The state after a sequence of updates. -/
def finalState (st : AppState) (evs : List Event) : AppState :=
  evs.foldl applyEvent st

/-- Function `resetState` (App.tsx lines 74-79) as the updates it issues. -/
def resetEvents : List Event :=
  [Event.setStatus AppStatus.idle, Event.setError none, Event.setSteps [],
   Event.setProgress ""]

/-- Function `resetState` (App.tsx lines 74-79) as a state transformer. -/
def resetState (st : AppState) : AppState :=
  finalState st resetEvents

/-- Models the unvalidated TS cast of the parsed plan elements to
`PlanStep[]` (geminiService.ts lines 85-87): a well-formed object decodes to
its fields; a missing or mistyped field stands in for the JS undefined the
cast would propagate into `handleRestore`. -/
def toPlanStep (j : Json) : PlanStep :=
  match j with
  | Json.obj fields =>
    { step :=
        match lookupField fields "step" with
        | some (Json.num n) => n
        | _ => 0,
      goal :=
        match lookupField fields "goal" with
        | some (Json.str s) => s
        | _ => "undefined" }
  | _ => { step := 0, goal := "undefined" }

/-- Deterministic oracle for the Gateway within a single run: the
environment credential and the responses the remote service returns for
each request (the user instructions are fixed for the run and absorbed
into the oracle's functions). `promptResponse` maps the current image and
the step goal to `response.text` of the prompt-generation call;
`editResponse` maps the current image and the generated prompt to
`response.candidates` of the image-edit call. -/
structure Gateway where
  apiKey : Option String
  planResponse : Option Json
  promptResponse : String → String → Option String
  editResponse : String → String → Option (List Candidate)

/-- Progress text set before the prompt-generation call (App.tsx 105). -/
def promptProgressMessage (index total : Nat) (goal : String) : String :=
  s!"Step {index + 1}/{total}: Generating prompt for \"{goal}\"..."

/-- Progress text set before the image-edit call (App.tsx 108). -/
def editProgressMessage (index total : Nat) (goal : String) : String :=
  s!"Step {index + 1}/{total}: Applying AI restoration for \"{goal}\"..."

/-- The `for (const [index, planStep] of plan.entries())` loop of
`handleRestore` (App.tsx lines 104-122). Returns the emitted updates, the
final `completedSteps` array, and the message of the throwing call when one
throws. -/
def runSteps (gw : Gateway) (total : Nat) :
    List PlanStep → Nat → String → List RestorationStep →
    List Event × List RestorationStep × Option String
  | [], _, _, completed => ([], completed, none)
  | ps :: rest, index, currentImage, completed =>
    let e1 := Event.setProgress (promptProgressMessage index total ps.goal)
    match generateStepPrompt (gw.promptResponse currentImage ps.goal) with
    | Except.error msg => ([e1], completed, some msg)
    | Except.ok stepPrompt =>
      let e2 := Event.setProgress (editProgressMessage index total ps.goal)
      match executeImageStep (gw.editResponse currentImage stepPrompt) with
      | Except.error msg => ([e1, e2], completed, some msg)
      | Except.ok newImage =>
        let newStep : RestorationStep :=
          { step := ps.step, goal := ps.goal, prompt := stepPrompt,
            beforeImage := currentImage, afterImage := newImage }
        let completed2 := completed ++ [newStep]
        let r := runSteps gw total rest (index + 1) newImage completed2
        (e1 :: e2 :: Event.setSteps completed2 :: r.1, r.2)

/-- One loop iteration's pair of Gateway calls: prompt generation, then the
image edit, returning the generated prompt and the new image. -/
def runOneStep (gw : Gateway) (currentImage : String) (ps : PlanStep) :
    Except String (String × String) :=
  match generateStepPrompt (gw.promptResponse currentImage ps.goal) with
  | Except.error msg => Except.error msg
  | Except.ok stepPrompt =>
    match executeImageStep (gw.editResponse currentImage stepPrompt) with
    | Except.error msg => Except.error msg
    | Except.ok newImage => Except.ok (stepPrompt, newImage)

/-- The steps a run completes: an accumulator-free view of `runSteps`. -/
def newSteps (gw : Gateway) : List PlanStep → String → List RestorationStep
  | [], _ => []
  | ps :: rest, currentImage =>
    match runOneStep gw currentImage ps with
    | Except.error _ => []
    | Except.ok (stepPrompt, newImage) =>
      { step := ps.step, goal := ps.goal, prompt := stepPrompt,
        beforeImage := currentImage, afterImage := newImage }
        :: newSteps gw rest newImage

/-- Index (0-based) of the first failing plan step, threading the image. -/
def failIndexFrom (gw : Gateway) : List PlanStep → String → Option Nat
  | [], _ => none
  | ps :: rest, currentImage =>
    match runOneStep gw currentImage ps with
    | Except.error _ => some 0
    | Except.ok (_, newImage) => (failIndexFrom gw rest newImage).map (· + 1)

/-- The message thrown by `getAiClient` (App.tsx line 54) when the
environment credential is absent. -/
def apiKeyErrorMessage : String := "API_KEY environment variable not set"

/-- Progress text set when planning starts (App.tsx line 93). -/
def planningProgressMessage : String := "Generating restoration plan..."

/-- Progress text set when the run completes (App.tsx line 125). -/
def doneProgressMessage : String := "Restoration complete!"

/-- Function `handleRestore` (App.tsx lines 88-131) as the sequence of state updates
it issues. `st.imagePreview.getD ""` renders the TS non-null assertion
`imagePreview!`; every theorem that depends on the image's value supplies
`imagePreview = some _`. The `getAiClient` call inside the try block throws
when `gw.apiKey` is absent, landing in the catch block like any other
failure. -/
def handleRestore (gw : Gateway) (st : AppState) : List Event :=
  match st.imageFile with
  | none => []
  | some _ =>
    resetEvents ++
    [Event.setStatus AppStatus.planning, Event.setProgress planningProgressMessage] ++
    match gw.apiKey with
    | none => [Event.setError (some apiKeyErrorMessage), Event.setStatus AppStatus.error]
    | some _ =>
      match generateRestorationPlan gw.planResponse with
      | Except.error msg => [Event.setError (some msg), Event.setStatus AppStatus.error]
      | Except.ok planJson =>
        let plan := planJson.map toPlanStep
        let r := runSteps gw plan.length plan 0 (st.imagePreview.getD "") []
        Event.setStatus AppStatus.restoring :: r.1 ++
        match r.2.2 with
        | none => [Event.setStatus AppStatus.done, Event.setProgress doneProgressMessage]
        | some msg => [Event.setError (some msg), Event.setStatus AppStatus.error]

/-- The component state after one `handleRestore` invocation. -/
def runFinal (gw : Gateway) (st : AppState) : AppState :=
  finalState st (handleRestore gw st)

/-- The statuses set during a sequence of updates, in order. -/
def statusTrace (evs : List Event) : List AppStatus :=
  evs.filterMap fun e =>
    match e with
    | Event.setStatus s => some s
    | _ => none

/-- The results sequences published during a sequence of updates, in
order. -/
def publishedSteps (evs : List Event) : List (List RestorationStep) :=
  evs.filterMap fun e =>
    match e with
    | Event.setSteps l => some l
    | _ => none

/-- Spec-side: a parsed plan element is a well-formed PlanStep object, an
object with an integer `step` field of value at least 1 and a string `goal`
field. -/
def isWellFormedPlanStep (j : Json) : Bool :=
  match j with
  | Json.obj fields =>
    (match lookupField fields "step" with
     | some (Json.num n) => decide (1 ≤ n)
     | _ => false) &&
    (match lookupField fields "goal" with
     | some (Json.str _) => true
     | _ => false)
  | _ => false

/-- Spec-side: whether a part is an image payload. -/
def partIsImage : RespPart → Bool
  | RespPart.inlineDataPart _ => true
  | RespPart.textPart _ => false

/-- Spec-side: an image payload is present anywhere in the response. -/
def hasImagePayload (candidates : Option (List Candidate)) : Bool :=
  match candidates with
  | none => false
  | some cs =>
    cs.any fun c =>
      match c.content with
      | some ct =>
        match ct.parts with
        | some ps => ps.any partIsImage
        | none => false
      | none => false

/-- Spec-side: the first part of the first candidate — the only position
the code inspects. -/
def firstCandidateFirstPart (candidates : Option (List Candidate)) : Option RespPart :=
  match candidates with
  | none => none
  | some cs =>
    match cs.head? with
    | none => none
    | some c =>
      match c.content with
      | none => none
      | some ct =>
        match ct.parts with
        | none => none
        | some ps => ps.head?

/-- Spec-side: strictly increasing continuation of a step-number list. -/
def strictIncFrom : Int → List Int → Bool
  | _, [] => true
  | p, x :: rest => decide (p < x) && strictIncFrom x rest

/-- Spec-side: step numbers strictly increase and start at 1. -/
def monotoneFromOne (l : List Int) : Bool :=
  match l with
  | [] => true
  | x :: rest => (x == 1) && strictIncFrom x rest

/-- Spec-side: adjacent before/after image chaining, anchored at the
original image. -/
def chainedFrom : String → List RestorationStep → Bool
  | _, [] => true
  | img, s :: rest => (s.beforeImage == img) && chainedFrom s.afterImage rest

/-- The error messages set during a sequence of updates, in order. -/
def errorTrace (evs : List Event) : List (Option String) :=
  evs.filterMap fun e =>
    match e with
    | Event.setError m => some m
    | _ => none

/-- The last element of a list, or the default when the list is empty. -/
def lastD {α : Type} (d : α) : List α → α
  | [] => d
  | x :: rest => lastD x rest

/-- Fixture: a state with an uploaded image and its preview data URL. -/
def stWithImage : AppState :=
  { imageFile := some "f", imagePreview := some "P", userPrompt := "",
    status := AppStatus.idle, error := none, restorationSteps := [],
    progressMessage := "" }

/-- Fixture: a state with no uploaded image, carrying leftover run data. -/
def stNoImage : AppState :=
  { imageFile := none, imagePreview := none, userPrompt := "u",
    status := AppStatus.done, error := some "old",
    restorationSteps := [], progressMessage := "old progress" }

/-- Fixture: a Gateway with no credential configured. -/
def gwNoKey : Gateway :=
  { apiKey := none, planResponse := none,
    promptResponse := fun _ _ => none, editResponse := fun _ _ => none }

/-- Fixture: a response whose single candidate carries one image part. -/
def okEditResponse (data : String) : Option (List Candidate) :=
  some [{ content := some { parts := some [RespPart.inlineDataPart data] } }]

/-- Fixture: a well-formed two-step plan response. -/
def goodPlanJson : Json :=
  Json.arr [Json.obj [("step", Json.num 1), ("goal", Json.str "g1")],
            Json.obj [("step", Json.num 2), ("goal", Json.str "g2")]]

/-- Fixture: a Gateway that answers every call successfully. -/
def gwGood : Gateway :=
  { apiKey := some "k", planResponse := some goodPlanJson,
    promptResponse := fun _ goal => some ("p" ++ goal),
    editResponse := fun _ _ => okEditResponse "A" }

/-- Fixture: the first step the `gwGood` run completes. -/
def goodStep1 : RestorationStep :=
  { step := 1, goal := "g1", prompt := "pg1", beforeImage := "P",
    afterImage := "data:image/png;base64,A" }

/-- Fixture: the second step the `gwGood` run completes. -/
def goodStep2 : RestorationStep :=
  { step := 2, goal := "g2", prompt := "pg2",
    beforeImage := "data:image/png;base64,A",
    afterImage := "data:image/png;base64,A" }

/-- Fixture: a Gateway whose (successful) plan numbers its only step 7. -/
def gwStep7 : Gateway :=
  { apiKey := some "k",
    planResponse := some (Json.arr [Json.obj [("step", Json.num 7), ("goal", Json.str "g")]]),
    promptResponse := fun _ goal => some ("p" ++ goal),
    editResponse := fun _ _ => okEditResponse "A" }

/-- Fixture: a Gateway whose second edit call returns no image payload. -/
def gwFailStep2 : Gateway :=
  { apiKey := some "k", planResponse := some goodPlanJson,
    promptResponse := fun _ goal => some ("p" ++ goal),
    editResponse := fun img _ => if img = "P" then okEditResponse "A" else some [] }

/-- Fixture: a plan element that is not a well-formed PlanStep object. -/
def malformedPlanElement : Json := Json.obj [("foo", Json.num 1)]

/-- Fixture: a response whose image payload sits in the second part of the
first candidate, behind a leading text part. -/
def imageInSecondPartResponse : Option (List Candidate) :=
  some [{ content := some { parts := some [RespPart.textPart "t",
                                           RespPart.inlineDataPart "A"] } }]

theorem runSteps_completed (gw : Gateway) (total : Nat) :
    ∀ (plan : List PlanStep) (index : Nat) (img : String) (completed : List RestorationStep),
      (runSteps gw total plan index img completed).2.1 = completed ++ newSteps gw plan img := by
  intro plan
  induction plan with
  | nil => intro index img completed; simp [runSteps, newSteps]
  | cons ps rest ih =>
    intro index img completed
    cases h1 : generateStepPrompt (gw.promptResponse img ps.goal) with
    | error msg => simp [runSteps, newSteps, runOneStep, h1]
    | ok stepPrompt =>
      cases h2 : executeImageStep (gw.editResponse img stepPrompt) with
      | error msg => simp [runSteps, newSteps, runOneStep, h1, h2]
      | ok newImage => simp [runSteps, newSteps, runOneStep, h1, h2, ih]

theorem runSteps_fail (gw : Gateway) (total : Nat) :
    ∀ (plan : List PlanStep) (index : Nat) (img : String) (completed : List RestorationStep),
      ((runSteps gw total plan index img completed).2.2 = none ↔
        failIndexFrom gw plan img = none) := by
  intro plan
  induction plan with
  | nil => intro index img completed; simp [runSteps, failIndexFrom]
  | cons ps rest ih =>
    intro index img completed
    cases h1 : generateStepPrompt (gw.promptResponse img ps.goal) with
    | error msg => simp [runSteps, failIndexFrom, runOneStep, h1]
    | ok stepPrompt =>
      cases h2 : executeImageStep (gw.editResponse img stepPrompt) with
      | error msg => simp [runSteps, failIndexFrom, runOneStep, h1, h2]
      | ok newImage => simp [runSteps, failIndexFrom, runOneStep, h1, h2, ih]

theorem newSteps_length_none (gw : Gateway) :
    ∀ (plan : List PlanStep) (img : String), failIndexFrom gw plan img = none →
      (newSteps gw plan img).length = plan.length := by
  intro plan
  induction plan with
  | nil => intro img _; simp [newSteps]
  | cons ps rest ih =>
    intro img h
    cases h1 : runOneStep gw img ps with
    | error msg => simp [failIndexFrom, h1] at h
    | ok pr =>
      obtain ⟨stepPrompt, newImage⟩ := pr
      simp [failIndexFrom, h1] at h
      simp [newSteps, h1, ih _ h]

theorem newSteps_length_some (gw : Gateway) :
    ∀ (plan : List PlanStep) (img : String) (K : Nat), failIndexFrom gw plan img = some K →
      (newSteps gw plan img).length = K := by
  intro plan
  induction plan with
  | nil => intro img K h; simp [failIndexFrom] at h
  | cons ps rest ih =>
    intro img K h
    cases h1 : runOneStep gw img ps with
    | error msg =>
      simp [failIndexFrom, h1] at h
      simp [newSteps, h1, ← h]
    | ok pr =>
      obtain ⟨stepPrompt, newImage⟩ := pr
      simp [failIndexFrom, h1] at h
      obtain ⟨K2, hK2, rfl⟩ := h
      simp [newSteps, h1, ih _ _ hK2]

theorem newSteps_chained (gw : Gateway) :
    ∀ (plan : List PlanStep) (img : String), chainedFrom img (newSteps gw plan img) = true := by
  intro plan
  induction plan with
  | nil => intro img; simp [newSteps, chainedFrom]
  | cons ps rest ih =>
    intro img
    cases h1 : runOneStep gw img ps with
    | error msg => simp [newSteps, h1, chainedFrom]
    | ok pr =>
      obtain ⟨stepPrompt, newImage⟩ := pr
      simp [newSteps, h1, chainedFrom, ih]

theorem newSteps_proj (gw : Gateway) :
    ∀ (plan : List PlanStep) (img : String),
      (newSteps gw plan img).map (fun s => (s.step, s.goal)) =
        (plan.take (newSteps gw plan img).length).map (fun p => (p.step, p.goal)) := by
  intro plan
  induction plan with
  | nil => intro img; simp [newSteps]
  | cons ps rest ih =>
    intro img
    cases h1 : runOneStep gw img ps with
    | error msg => simp [newSteps, h1]
    | ok pr =>
      obtain ⟨stepPrompt, newImage⟩ := pr
      simp [newSteps, h1, List.take_succ_cons, ih]

theorem publishedSteps_nil : publishedSteps [] = [] := rfl

theorem publishedSteps_status (s : AppStatus) (l : List Event) :
    publishedSteps (Event.setStatus s :: l) = publishedSteps l := rfl

theorem publishedSteps_error (m : Option String) (l : List Event) :
    publishedSteps (Event.setError m :: l) = publishedSteps l := rfl

theorem publishedSteps_progress (m : String) (l : List Event) :
    publishedSteps (Event.setProgress m :: l) = publishedSteps l := rfl

theorem publishedSteps_setSteps (s : List RestorationStep) (l : List Event) :
    publishedSteps (Event.setSteps s :: l) = s :: publishedSteps l := rfl

theorem runSteps_published (gw : Gateway) (total : Nat) :
    ∀ (plan : List PlanStep) (index : Nat) (img : String) (completed : List RestorationStep),
      publishedSteps (runSteps gw total plan index img completed).1 =
        (List.range (newSteps gw plan img).length).map
          (fun i => completed ++ (newSteps gw plan img).take (i + 1)) := by
  intro plan
  induction plan with
  | nil => intro index img completed; simp [runSteps, newSteps, publishedSteps]
  | cons ps rest ih =>
    intro index img completed
    cases h1 : generateStepPrompt (gw.promptResponse img ps.goal) with
    | error msg => simp [runSteps, newSteps, runOneStep, h1, publishedSteps]
    | ok stepPrompt =>
      cases h2 : executeImageStep (gw.editResponse img stepPrompt) with
      | error msg => simp [runSteps, newSteps, runOneStep, h1, h2, publishedSteps]
      | ok newImage =>
        simp only [runSteps, h1, h2]
        rw [publishedSteps_progress, publishedSteps_progress, publishedSteps_setSteps, ih]
        simp only [newSteps, runOneStep, h1, h2, List.length_cons, List.range_succ_eq_map,
          List.map_cons, List.map_map, List.take_succ_cons, List.take_zero, List.append_nil]
        congr 1
        apply List.map_congr_left
        intro i _
        simp [Function.comp, List.take_succ_cons]

theorem statusTrace_nil : statusTrace [] = [] := rfl

theorem statusTrace_status (s : AppStatus) (l : List Event) :
    statusTrace (Event.setStatus s :: l) = s :: statusTrace l := rfl

theorem statusTrace_error (m : Option String) (l : List Event) :
    statusTrace (Event.setError m :: l) = statusTrace l := rfl

theorem statusTrace_setSteps (s : List RestorationStep) (l : List Event) :
    statusTrace (Event.setSteps s :: l) = statusTrace l := rfl

theorem statusTrace_progress (m : String) (l : List Event) :
    statusTrace (Event.setProgress m :: l) = statusTrace l := rfl

theorem errorTrace_nil : errorTrace [] = [] := rfl

theorem errorTrace_status (s : AppStatus) (l : List Event) :
    errorTrace (Event.setStatus s :: l) = errorTrace l := rfl

theorem errorTrace_error (m : Option String) (l : List Event) :
    errorTrace (Event.setError m :: l) = m :: errorTrace l := rfl

theorem errorTrace_setSteps (s : List RestorationStep) (l : List Event) :
    errorTrace (Event.setSteps s :: l) = errorTrace l := rfl

theorem errorTrace_progress (m : String) (l : List Event) :
    errorTrace (Event.setProgress m :: l) = errorTrace l := rfl

theorem runSteps_statusTrace (gw : Gateway) (total : Nat) :
    ∀ (plan : List PlanStep) (index : Nat) (img : String) (completed : List RestorationStep),
      statusTrace (runSteps gw total plan index img completed).1 = [] := by
  intro plan
  induction plan with
  | nil => intro index img completed; rfl
  | cons ps rest ih =>
    intro index img completed
    cases h1 : generateStepPrompt (gw.promptResponse img ps.goal) with
    | error msg => simp [runSteps, h1, statusTrace_progress, statusTrace_nil]
    | ok stepPrompt =>
      cases h2 : executeImageStep (gw.editResponse img stepPrompt) with
      | error msg => simp [runSteps, h1, h2, statusTrace_progress, statusTrace_nil]
      | ok newImage =>
        simp only [runSteps, h1, h2]
        rw [statusTrace_progress, statusTrace_progress, statusTrace_setSteps, ih]

theorem runSteps_errorTrace (gw : Gateway) (total : Nat) :
    ∀ (plan : List PlanStep) (index : Nat) (img : String) (completed : List RestorationStep),
      errorTrace (runSteps gw total plan index img completed).1 = [] := by
  intro plan
  induction plan with
  | nil => intro index img completed; rfl
  | cons ps rest ih =>
    intro index img completed
    cases h1 : generateStepPrompt (gw.promptResponse img ps.goal) with
    | error msg => simp [runSteps, h1, errorTrace_progress, errorTrace_nil]
    | ok stepPrompt =>
      cases h2 : executeImageStep (gw.editResponse img stepPrompt) with
      | error msg => simp [runSteps, h1, h2, errorTrace_progress, errorTrace_nil]
      | ok newImage =>
        simp only [runSteps, h1, h2]
        rw [errorTrace_progress, errorTrace_progress, errorTrace_setSteps, ih]

theorem finalState_status : ∀ (evs : List Event) (st : AppState),
    (finalState st evs).status = lastD st.status (statusTrace evs) := by
  intro evs
  induction evs with
  | nil => intro st; rfl
  | cons e rest ih =>
    intro st
    cases e <;> simpa [finalState, List.foldl_cons, applyEvent, statusTrace_status,
      statusTrace_error, statusTrace_setSteps, statusTrace_progress, lastD] using ih _

theorem finalState_error : ∀ (evs : List Event) (st : AppState),
    (finalState st evs).error = lastD st.error (errorTrace evs) := by
  intro evs
  induction evs with
  | nil => intro st; rfl
  | cons e rest ih =>
    intro st
    cases e <;> simpa [finalState, List.foldl_cons, applyEvent, errorTrace_status,
      errorTrace_error, errorTrace_setSteps, errorTrace_progress, lastD] using ih _

theorem finalState_steps : ∀ (evs : List Event) (st : AppState),
    (finalState st evs).restorationSteps = lastD st.restorationSteps (publishedSteps evs) := by
  intro evs
  induction evs with
  | nil => intro st; rfl
  | cons e rest ih =>
    intro st
    cases e <;> simpa [finalState, List.foldl_cons, applyEvent, publishedSteps_status,
      publishedSteps_error, publishedSteps_setSteps, publishedSteps_progress, lastD] using ih _

theorem statusTrace_append (a b : List Event) :
    statusTrace (a ++ b) = statusTrace a ++ statusTrace b := List.filterMap_append a b _

theorem errorTrace_append (a b : List Event) :
    errorTrace (a ++ b) = errorTrace a ++ errorTrace b := List.filterMap_append a b _

theorem publishedSteps_append (a b : List Event) :
    publishedSteps (a ++ b) = publishedSteps a ++ publishedSteps b := List.filterMap_append a b _

theorem lastD_cons {α : Type} (d x : α) (l : List α) : lastD d (x :: l) = lastD x l := rfl

theorem lastD_append_singleton {α : Type} :
    ∀ (l : List α) (d x : α), lastD d (l ++ [x]) = x := by
  intro l
  induction l with
  | nil => intro d x; rfl
  | cons y rest ih => intro d x; simpa [lastD] using ih y x

theorem lastD_prefixes (Δ : List RestorationStep) :
    lastD [] ((List.range Δ.length).map (fun i => Δ.take (i + 1))) = Δ := by
  cases Δ with
  | nil => rfl
  | cons a t =>
    rw [show (a :: t).length = t.length + 1 from rfl, List.range_succ, List.map_append,
      List.map_singleton, lastD_append_singleton]
    simp [List.take_succ_cons, List.take_length]

theorem chainedFrom_head :
    ∀ (l : List RestorationStep) (img : String) (s : RestorationStep),
      chainedFrom img l = true → l.head? = some s → s.beforeImage = img := by
  intro l img s hc hh
  cases l with
  | nil => simp at hh
  | cons s0 rest =>
    simp [List.head?] at hh
    simp [chainedFrom] at hc
    rw [← hh]
    exact hc.1

theorem chainedFrom_adjacent :
    ∀ (l : List RestorationStep) (img : String), chainedFrom img l = true →
      ∀ (i : Nat) (a b : RestorationStep), l.get? i = some a → l.get? (i + 1) = some b →
        a.afterImage = b.beforeImage := by
  intro l
  induction l with
  | nil => intro img _ i a b ha _; simp at ha
  | cons s rest ih =>
    intro img hc i a b ha hb
    simp [chainedFrom] at hc
    cases i with
    | zero =>
      simp [List.get?] at ha
      cases rest with
      | nil => simp at hb
      | cons r0 rt =>
        simp [List.get?] at hb
        simp [chainedFrom] at hc
        rw [← ha, ← hb]
        exact (hc.2.1).symm
    | succ j =>
      exact ih s.afterImage hc.2 j a b (by simpa using ha) (by simpa using hb)

theorem handleRestore_noImage (gw : Gateway) (st : AppState) (h : st.imageFile = none) :
    handleRestore gw st = [] := by
  simp [handleRestore, h]

theorem handleRestore_noKey (gw : Gateway) (st : AppState) (f : String)
    (hf : st.imageFile = some f) (hk : gw.apiKey = none) :
    handleRestore gw st =
      resetEvents ++
      [Event.setStatus AppStatus.planning, Event.setProgress planningProgressMessage] ++
      [Event.setError (some apiKeyErrorMessage), Event.setStatus AppStatus.error] := by
  simp [handleRestore, hf, hk]

theorem handleRestore_planErr (gw : Gateway) (st : AppState) (f k msg : String)
    (hf : st.imageFile = some f) (hk : gw.apiKey = some k)
    (hp : generateRestorationPlan gw.planResponse = Except.error msg) :
    handleRestore gw st =
      resetEvents ++
      [Event.setStatus AppStatus.planning, Event.setProgress planningProgressMessage] ++
      [Event.setError (some msg), Event.setStatus AppStatus.error] := by
  simp [handleRestore, hf, hk, hp]

theorem handleRestore_planOk (gw : Gateway) (st : AppState) (f k : String) (pj : List Json)
    (hf : st.imageFile = some f) (hk : gw.apiKey = some k)
    (hp : generateRestorationPlan gw.planResponse = Except.ok pj) :
    handleRestore gw st =
      resetEvents ++
      [Event.setStatus AppStatus.planning, Event.setProgress planningProgressMessage] ++
      (Event.setStatus AppStatus.restoring ::
        (runSteps gw (pj.map toPlanStep).length (pj.map toPlanStep) 0
            (st.imagePreview.getD "") []).1 ++
        match (runSteps gw (pj.map toPlanStep).length (pj.map toPlanStep) 0
            (st.imagePreview.getD "") []).2.2 with
        | none => [Event.setStatus AppStatus.done, Event.setProgress doneProgressMessage]
        | some msg => [Event.setError (some msg), Event.setStatus AppStatus.error]) := by
  simp [handleRestore, hf, hk, hp]

theorem runFinal_noKey (gw : Gateway) (st : AppState) (f : String)
    (hf : st.imageFile = some f) (hk : gw.apiKey = none) :
    (runFinal gw st).status = AppStatus.error ∧
    (runFinal gw st).error = some apiKeyErrorMessage ∧
    (runFinal gw st).restorationSteps = [] ∧
    statusTrace (handleRestore gw st) = [AppStatus.idle, AppStatus.planning, AppStatus.error] := by
  have he := handleRestore_noKey gw st f hf hk
  refine ⟨?_, ?_, ?_, ?_⟩ <;>
    first
    | (rw [show runFinal gw st = finalState st (handleRestore gw st) from rfl, he]; rfl)
    | (rw [he]; rfl)

theorem runFinal_planErr (gw : Gateway) (st : AppState) (f k msg : String)
    (hf : st.imageFile = some f) (hk : gw.apiKey = some k)
    (hp : generateRestorationPlan gw.planResponse = Except.error msg) :
    (runFinal gw st).status = AppStatus.error ∧
    (runFinal gw st).error = some msg ∧
    (runFinal gw st).restorationSteps = [] := by
  have he := handleRestore_planErr gw st f k msg hf hk hp
  refine ⟨?_, ?_, ?_⟩ <;>
    (rw [show runFinal gw st = finalState st (handleRestore gw st) from rfl, he]; rfl)

theorem handleRestore_planOk_done (gw : Gateway) (st : AppState) (f k : String)
    (pj : List Json)
    (hf : st.imageFile = some f) (hk : gw.apiKey = some k)
    (hp : generateRestorationPlan gw.planResponse = Except.ok pj)
    (herr2 : (runSteps gw (pj.map toPlanStep).length (pj.map toPlanStep) 0
      (st.imagePreview.getD "") []).2.2 = none) :
    handleRestore gw st =
      resetEvents ++
      [Event.setStatus AppStatus.planning, Event.setProgress planningProgressMessage] ++
      (Event.setStatus AppStatus.restoring ::
        (runSteps gw (pj.map toPlanStep).length (pj.map toPlanStep) 0
            (st.imagePreview.getD "") []).1 ++
        [Event.setStatus AppStatus.done, Event.setProgress doneProgressMessage]) := by
  simp only [List.length_map] at herr2
  simp [handleRestore, hf, hk, hp, herr2]

theorem handleRestore_planOk_err (gw : Gateway) (st : AppState) (f k msg : String)
    (pj : List Json)
    (hf : st.imageFile = some f) (hk : gw.apiKey = some k)
    (hp : generateRestorationPlan gw.planResponse = Except.ok pj)
    (herr2 : (runSteps gw (pj.map toPlanStep).length (pj.map toPlanStep) 0
      (st.imagePreview.getD "") []).2.2 = some msg) :
    handleRestore gw st =
      resetEvents ++
      [Event.setStatus AppStatus.planning, Event.setProgress planningProgressMessage] ++
      (Event.setStatus AppStatus.restoring ::
        (runSteps gw (pj.map toPlanStep).length (pj.map toPlanStep) 0
            (st.imagePreview.getD "") []).1 ++
        [Event.setError (some msg), Event.setStatus AppStatus.error]) := by
  simp only [List.length_map] at herr2
  simp [handleRestore, hf, hk, hp, herr2]

theorem runFinal_planOk_done (gw : Gateway) (st : AppState) (f k : String) (pj : List Json)
    (hf : st.imageFile = some f) (hk : gw.apiKey = some k)
    (hp : generateRestorationPlan gw.planResponse = Except.ok pj)
    (herr : failIndexFrom gw (pj.map toPlanStep) (st.imagePreview.getD "") = none) :
    (runFinal gw st).status = AppStatus.done ∧
    (runFinal gw st).error = none ∧
    (runFinal gw st).restorationSteps =
      newSteps gw (pj.map toPlanStep) (st.imagePreview.getD "") ∧
    publishedSteps (handleRestore gw st) =
      [] :: (List.range (newSteps gw (pj.map toPlanStep) (st.imagePreview.getD "")).length).map
        (fun i => (newSteps gw (pj.map toPlanStep) (st.imagePreview.getD "")).take (i + 1)) := by
  have herr2 : (runSteps gw (pj.map toPlanStep).length (pj.map toPlanStep) 0
      (st.imagePreview.getD "") []).2.2 = none :=
    (runSteps_fail gw (pj.map toPlanStep).length (pj.map toPlanStep) 0
      (st.imagePreview.getD "") []).mpr herr
  have he := handleRestore_planOk_done gw st f k pj hf hk hp herr2
  have hpub : publishedSteps (handleRestore gw st) =
      [] :: (List.range (newSteps gw (pj.map toPlanStep) (st.imagePreview.getD "")).length).map
        (fun i => (newSteps gw (pj.map toPlanStep) (st.imagePreview.getD "")).take (i + 1)) := by
    rw [he]
    simp only [publishedSteps_append, resetEvents, publishedSteps_status, publishedSteps_error,
      publishedSteps_setSteps, publishedSteps_progress, publishedSteps_nil,
      runSteps_published, List.nil_append, List.append_nil, List.cons_append,
      List.singleton_append]
  refine ⟨?_, ?_, ?_, hpub⟩
  · rw [show runFinal gw st = finalState st (handleRestore gw st) from rfl, finalState_status, he]
    simp only [statusTrace_append, resetEvents, statusTrace_status, statusTrace_error,
      statusTrace_setSteps, statusTrace_progress, statusTrace_nil, runSteps_statusTrace,
      List.nil_append, List.append_nil, List.cons_append, List.singleton_append]
    simp [lastD]
  · rw [show runFinal gw st = finalState st (handleRestore gw st) from rfl, finalState_error, he]
    simp only [errorTrace_append, resetEvents, errorTrace_status, errorTrace_error,
      errorTrace_setSteps, errorTrace_progress, errorTrace_nil, runSteps_errorTrace,
      List.nil_append, List.append_nil, List.cons_append, List.singleton_append]
    simp [lastD]
  · rw [show runFinal gw st = finalState st (handleRestore gw st) from rfl, finalState_steps, hpub]
    rw [lastD_cons, lastD_prefixes]

theorem runFinal_planOk_err (gw : Gateway) (st : AppState) (f k : String) (pj : List Json)
    (K : Nat)
    (hf : st.imageFile = some f) (hk : gw.apiKey = some k)
    (hp : generateRestorationPlan gw.planResponse = Except.ok pj)
    (herr : failIndexFrom gw (pj.map toPlanStep) (st.imagePreview.getD "") = some K) :
    (runFinal gw st).status = AppStatus.error ∧
    (runFinal gw st).restorationSteps =
      newSteps gw (pj.map toPlanStep) (st.imagePreview.getD "") ∧
    publishedSteps (handleRestore gw st) =
      [] :: (List.range (newSteps gw (pj.map toPlanStep) (st.imagePreview.getD "")).length).map
        (fun i => (newSteps gw (pj.map toPlanStep) (st.imagePreview.getD "")).take (i + 1)) := by
  obtain ⟨msg, herr2⟩ : ∃ msg, (runSteps gw (pj.map toPlanStep).length (pj.map toPlanStep) 0
      (st.imagePreview.getD "") []).2.2 = some msg := by
    cases h : (runSteps gw (pj.map toPlanStep).length (pj.map toPlanStep) 0
        (st.imagePreview.getD "") []).2.2 with
    | none =>
      rw [(runSteps_fail gw (pj.map toPlanStep).length (pj.map toPlanStep) 0
        (st.imagePreview.getD "") []).mp h] at herr
      exact absurd herr (by simp)
    | some m => exact ⟨m, rfl⟩
  have he := handleRestore_planOk_err gw st f k msg pj hf hk hp herr2
  have hpub : publishedSteps (handleRestore gw st) =
      [] :: (List.range (newSteps gw (pj.map toPlanStep) (st.imagePreview.getD "")).length).map
        (fun i => (newSteps gw (pj.map toPlanStep) (st.imagePreview.getD "")).take (i + 1)) := by
    rw [he]
    simp only [publishedSteps_append, resetEvents, publishedSteps_status, publishedSteps_error,
      publishedSteps_setSteps, publishedSteps_progress, publishedSteps_nil,
      runSteps_published, List.nil_append, List.append_nil, List.cons_append,
      List.singleton_append]
  refine ⟨?_, ?_, hpub⟩
  · rw [show runFinal gw st = finalState st (handleRestore gw st) from rfl, finalState_status, he]
    simp only [statusTrace_append, resetEvents, statusTrace_status, statusTrace_error,
      statusTrace_setSteps, statusTrace_progress, statusTrace_nil, runSteps_statusTrace,
      List.nil_append, List.append_nil, List.cons_append, List.singleton_append]
    simp [lastD]
  · rw [show runFinal gw st = finalState st (handleRestore gw st) from rfl, finalState_steps, hpub]
    rw [lastD_cons, lastD_prefixes]

/-- C1: for every run that completes successfully, the published
RestorationStep sequence satisfies the image-chaining invariant: the first
entry's beforeImage equals the originally uploaded image, and every entry's
afterImage equals the next entry's beforeImage. -/
theorem c1_image_chaining (gw : Gateway) (st : AppState) (f orig : String)
    (hf : st.imageFile = some f) (hprev : st.imagePreview = some orig)
    (hdone : (runFinal gw st).status = AppStatus.done) :
    (∀ s, (runFinal gw st).restorationSteps.head? = some s → s.beforeImage = orig) ∧
    (∀ (i : Nat) (a b : RestorationStep),
      (runFinal gw st).restorationSteps.get? i = some a →
      (runFinal gw st).restorationSteps.get? (i + 1) = some b →
      a.afterImage = b.beforeImage) := by
  cases hk : gw.apiKey with
  | none =>
    have h := runFinal_noKey gw st f hf hk
    rw [h.1] at hdone
    simp at hdone
  | some k =>
    cases hp : generateRestorationPlan gw.planResponse with
    | error msg =>
      have h := runFinal_planErr gw st f k msg hf hk hp
      rw [h.1] at hdone
      simp at hdone
    | ok pj =>
      cases herr : failIndexFrom gw (pj.map toPlanStep) (st.imagePreview.getD "") with
      | some K =>
        have h := runFinal_planOk_err gw st f k pj K hf hk hp herr
        rw [h.1] at hdone
        simp at hdone
      | none =>
        have h := runFinal_planOk_done gw st f k pj hf hk hp herr
        have hsteps := h.2.2.1
        have horig : st.imagePreview.getD "" = orig := by rw [hprev]; rfl
        rw [horig] at hsteps
        have hch : chainedFrom orig ((runFinal gw st).restorationSteps) = true := by
          rw [hsteps]
          exact newSteps_chained gw _ orig
        exact ⟨fun s hs => chainedFrom_head _ orig s hch hs,
               fun i a b ha hb => chainedFrom_adjacent _ orig hch i a b ha hb⟩

/-- Witness for C1: the concrete successful two-step run of `gwGood`. -/
theorem c1_image_chaining_witness :
    goodStep1.beforeImage = "P" ∧ goodStep1.afterImage = goodStep2.beforeImage := by
  have h := c1_image_chaining gwGood stWithImage "f" "P" rfl rfl (by decide)
  exact ⟨h.1 goodStep1 (by decide), h.2 0 goodStep1 goodStep2 (by decide) (by decide)⟩

/-- C2: for every plan of length N the published results sequence grows by
exactly one entry per completed step in plan order, reaching N entries when
no step fails, K entries when step K+1 fails, and zero entries with status
error when the planning call itself fails. -/
theorem c2_results_growth (gw : Gateway) (st : AppState) (f : String)
    (hf : st.imageFile = some f) :
    ((∃ msg, generateRestorationPlan gw.planResponse = Except.error msg) →
      (runFinal gw st).status = AppStatus.error ∧
      (runFinal gw st).restorationSteps = []) ∧
    (∀ (k : String) (pj : List Json), gw.apiKey = some k →
      generateRestorationPlan gw.planResponse = Except.ok pj →
      ((failIndexFrom gw (pj.map toPlanStep) (st.imagePreview.getD "") = none →
        (runFinal gw st).status = AppStatus.done ∧
        (runFinal gw st).restorationSteps.length = (pj.map toPlanStep).length) ∧
       (∀ K, failIndexFrom gw (pj.map toPlanStep) (st.imagePreview.getD "") = some K →
        (runFinal gw st).status = AppStatus.error ∧
        (runFinal gw st).restorationSteps.length = K) ∧
       publishedSteps (handleRestore gw st) =
        [] :: (List.range (runFinal gw st).restorationSteps.length).map
          (fun i => (runFinal gw st).restorationSteps.take (i + 1)))) := by
  constructor
  · rintro ⟨msg, hp⟩
    cases hk : gw.apiKey with
    | none =>
      have h := runFinal_noKey gw st f hf hk
      exact ⟨h.1, h.2.2.1⟩
    | some k =>
      have h := runFinal_planErr gw st f k msg hf hk hp
      exact ⟨h.1, h.2.2⟩
  · intro k pj hk hp
    refine ⟨?_, ?_, ?_⟩
    · intro herr
      have h := runFinal_planOk_done gw st f k pj hf hk hp herr
      refine ⟨h.1, ?_⟩
      rw [h.2.2.1]
      exact newSteps_length_none gw _ _ herr
    · intro K herr
      have h := runFinal_planOk_err gw st f k pj K hf hk hp herr
      refine ⟨h.1, ?_⟩
      rw [h.2.1]
      exact newSteps_length_some gw _ _ _ herr
    · cases herr : failIndexFrom gw (pj.map toPlanStep) (st.imagePreview.getD "") with
      | none =>
        have h := runFinal_planOk_done gw st f k pj hf hk hp herr
        rw [h.2.2.1]
        exact h.2.2.2
      | some K =>
        have h := runFinal_planOk_err gw st f k pj K hf hk hp herr
        rw [h.2.1]
        exact h.2.2

/-- Witness for C2: the concrete two-step run of `gwGood` reaches status
done with exactly two published entries. -/
theorem c2_results_growth_witness :
    (runFinal gwGood stWithImage).status = AppStatus.done ∧
    (runFinal gwGood stWithImage).restorationSteps.length = 2 := by
  have h := (c2_results_growth gwGood stWithImage "f" rfl).2 "k"
    [Json.obj [("step", Json.num 1), ("goal", Json.str "g1")],
     Json.obj [("step", Json.num 2), ("goal", Json.str "g2")]] rfl rfl
  exact (h.1 (by decide))

/-- C3 counterexample: a response that parses to a non-empty array whose
only element is not a well-formed PlanStep object is accepted, not
rejected with a PlanError as the claim requires. -/
theorem c3_counterexample :
    generateRestorationPlan (some (Json.arr [malformedPlanElement])) =
      Except.ok [malformedPlanElement] ∧
    isWellFormedPlanStep malformedPlanElement = false := ⟨rfl, rfl⟩

/-- C3 (amended): `generateRestorationPlan` returns the parsed elements
exactly when the response parses to a non-empty JSON array — the shape of
the elements is never validated — and every other outcome (parse failure,
non-array, empty array) fails with the single plan-error message. -/
theorem c3_plan_accepts_any_nonempty_array (parsed : Option Json) :
    (∀ elems, generateRestorationPlan parsed = Except.ok elems ↔
      (parsed = some (Json.arr elems) ∧ elems ≠ [])) ∧
    ((∀ elems, parsed = some (Json.arr elems) → elems = []) →
      generateRestorationPlan parsed = Except.error planErrorMessage) := by
  constructor
  · intro elems
    constructor
    · intro h
      rcases parsed with _ | j
      · simp [generateRestorationPlan] at h
      · rcases j with _ | b | n | s | es | fields <;>
          try simp [generateRestorationPlan] at h
        rcases es with _ | ⟨a, t⟩
        · simp [generateRestorationPlan] at h
        · simp [generateRestorationPlan] at h
          subst h
          exact ⟨rfl, by simp⟩
    · rintro ⟨rfl, hne⟩
      rcases elems with _ | ⟨a, t⟩
      · exact absurd rfl hne
      · simp [generateRestorationPlan]
  · intro hall
    rcases parsed with _ | j
    · rfl
    · rcases j with _ | b | n | s | es | fields
      · rfl
      · rfl
      · rfl
      · rfl
      · have := hall es rfl
        subst this
        rfl
      · rfl

/-- Witness for C3 (amended): a non-empty array of a single number is
accepted as a plan. -/
theorem c3_plan_accepts_any_nonempty_array_witness :
    generateRestorationPlan (some (Json.arr [Json.num 3])) = Except.ok [Json.num 3] :=
  ((c3_plan_accepts_any_nonempty_array (some (Json.arr [Json.num 3]))).1 [Json.num 3]).mpr
    ⟨rfl, by simp⟩

/-- C4 counterexample: an empty response text is accepted and returned as
an (empty) prompt, not rejected with a PromptError as the claim requires. -/
theorem c4_counterexample : generateStepPrompt (some "") = Except.ok "" := rfl

/-- C4 (amended): `generateStepPrompt` performs no validation: whenever the
response has text — even empty text — it returns the trimmed text, and it
fails only when the response has no text at all (where `.trim()` raises a
TypeError). -/
theorem c4_prompt_no_validation :
    (∀ s : String, generateStepPrompt (some s) = Except.ok (jsTrim s)) ∧
    (∀ t : Option String, (generateStepPrompt t).isOk = true ↔ t.isSome = true) ∧
    generateStepPrompt none = Except.error trimTypeErrorMessage := by
  refine ⟨fun s => rfl, fun t => ?_, rfl⟩
  rcases t with _ | s <;> simp [generateStepPrompt, Except.isOk, Except.toBool]

/-- Witness for C4 (amended): a whitespace-padded response comes back
trimmed. -/
theorem c4_prompt_no_validation_witness :
    generateStepPrompt (some " p ") = Except.ok (jsTrim " p ") :=
  c4_prompt_no_validation.1 " p "

/-- C5 counterexample: a response carrying an image payload in the second
part of its first candidate is rejected with the edit error, although an
image payload is present in the response. -/
theorem c5_counterexample :
    hasImagePayload imageInSecondPartResponse = true ∧
    executeImageStep imageInSecondPartResponse = Except.error editErrorMessage := ⟨rfl, rfl⟩

/-- C5 (amended): `executeImageStep` succeeds exactly when the first part
of the first candidate is an image payload — payloads anywhere else are
ignored — and in that case returns the payload with the fixed PNG data-URL
prefix. -/
theorem c5_first_part_only (candidates : Option (List Candidate)) :
    ((executeImageStep candidates).isOk = true ↔
      ∃ d, firstCandidateFirstPart candidates = some (RespPart.inlineDataPart d)) ∧
    (∀ d, firstCandidateFirstPart candidates = some (RespPart.inlineDataPart d) →
      executeImageStep candidates = Except.ok ("data:image/png;base64," ++ d)) := by
  rcases candidates with _ | cs
  · simp [executeImageStep, firstCandidateFirstPart, Except.isOk, Except.toBool]
  · rcases cs with _ | ⟨c, rest⟩
    · simp [executeImageStep, firstCandidateFirstPart, Except.isOk, Except.toBool]
    · rcases c with ⟨_ | ct⟩
      · simp [executeImageStep, firstCandidateFirstPart, Except.isOk, Except.toBool]
      · rcases ct with ⟨_ | ps⟩
        · simp [executeImageStep, firstCandidateFirstPart, Except.isOk, Except.toBool]
        · rcases ps with _ | ⟨p, pt⟩
          · simp [executeImageStep, firstCandidateFirstPart, Except.isOk, Except.toBool]
          · rcases p with s | d <;>
              simp [executeImageStep, firstCandidateFirstPart, Except.isOk, Except.toBool]

/-- Witness for C5 (amended): a first-part image payload is returned with
the PNG data-URL prefix. -/
theorem c5_first_part_only_witness :
    executeImageStep (okEditResponse "A") = Except.ok ("data:image/png;base64," ++ "A") :=
  (c5_first_part_only (okEditResponse "A")).2 "A" rfl

/-- C6 counterexample: with the credential missing, the run does leave the
idle status — it transitions to planning before the error is reported. -/
theorem c6_counterexample :
    statusTrace (handleRestore gwNoKey stWithImage) =
      [AppStatus.idle, AppStatus.planning, AppStatus.error] ∧
    AppStatus.planning ∈ statusTrace (handleRestore gwNoKey stWithImage) ∧
    (runFinal gwNoKey stWithImage).status = AppStatus.error := by
  refine ⟨by decide, by decide, by decide⟩

/-- C6 (amended): a missing Gateway credential is only detected inside the
run: the status transitions idle, planning, error; no Gateway call is made,
no step is published, and the credential error message is surfaced. -/
theorem c6_missing_key_fails_after_planning (gw : Gateway) (st : AppState) (f : String)
    (hf : st.imageFile = some f) (hk : gw.apiKey = none) :
    statusTrace (handleRestore gw st) =
      [AppStatus.idle, AppStatus.planning, AppStatus.error] ∧
    (runFinal gw st).status = AppStatus.error ∧
    (runFinal gw st).error = some apiKeyErrorMessage ∧
    (runFinal gw st).restorationSteps = [] := by
  have h := runFinal_noKey gw st f hf hk
  exact ⟨h.2.2.2, h.1, h.2.1, h.2.2.1⟩

/-- Witness for C6 (amended) at the concrete credential-less Gateway. -/
theorem c6_missing_key_fails_after_planning_witness :
    statusTrace (handleRestore gwNoKey stWithImage) =
      [AppStatus.idle, AppStatus.planning, AppStatus.error] ∧
    (runFinal gwNoKey stWithImage).status = AppStatus.error ∧
    (runFinal gwNoKey stWithImage).error = some apiKeyErrorMessage ∧
    (runFinal gwNoKey stWithImage).restorationSteps = [] :=
  c6_missing_key_fails_after_planning gwNoKey stWithImage "f" rfl rfl

/-- C7 counterexample: a successful run whose (trusted) plan numbers its
only step 7 publishes step numbers that do not start at 1. -/
theorem c7_counterexample :
    (runFinal gwStep7 stWithImage).status = AppStatus.done ∧
    (runFinal gwStep7 stWithImage).restorationSteps.map (fun s => s.step) = [7] ∧
    monotoneFromOne
      ((runFinal gwStep7 stWithImage).restorationSteps.map (fun s => s.step)) = false := by
  refine ⟨by decide, by decide, by decide⟩

/-- C7 (amended): the published step numbers and goals are exactly those of
the plan's corresponding prefix, in plan order; they are monotonically
increasing from 1 only when the plan's own numbers are (the code adopts the
plan's numbering without validating it). -/
theorem c7_steps_follow_plan (gw : Gateway) (st : AppState) (f k : String) (pj : List Json)
    (hf : st.imageFile = some f) (hk : gw.apiKey = some k)
    (hp : generateRestorationPlan gw.planResponse = Except.ok pj) :
    (runFinal gw st).restorationSteps.map (fun s => (s.step, s.goal)) =
      ((pj.map toPlanStep).take (runFinal gw st).restorationSteps.length).map
        (fun p => (p.step, p.goal)) ∧
    (failIndexFrom gw (pj.map toPlanStep) (st.imagePreview.getD "") = none →
     monotoneFromOne ((pj.map toPlanStep).map (fun p => p.step)) = true →
      monotoneFromOne ((runFinal gw st).restorationSteps.map (fun s => s.step)) = true) := by
  have hsteps : (runFinal gw st).restorationSteps =
      newSteps gw (pj.map toPlanStep) (st.imagePreview.getD "") := by
    cases herr : failIndexFrom gw (pj.map toPlanStep) (st.imagePreview.getD "") with
    | none => exact (runFinal_planOk_done gw st f k pj hf hk hp herr).2.2.1
    | some K => exact (runFinal_planOk_err gw st f k pj K hf hk hp herr).2.1
  constructor
  · rw [hsteps]
    exact newSteps_proj gw _ _
  · intro herr hmono
    have hlen : (newSteps gw (pj.map toPlanStep) (st.imagePreview.getD "")).length =
        (pj.map toPlanStep).length := newSteps_length_none gw _ _ herr
    have hproj := newSteps_proj gw (pj.map toPlanStep) (st.imagePreview.getD "")
    rw [hlen, List.take_length] at hproj
    have hstep : (newSteps gw (pj.map toPlanStep) (st.imagePreview.getD "")).map
        (fun s => s.step) = (pj.map toPlanStep).map (fun p => p.step) := by
      have h2 := congrArg (List.map Prod.fst) hproj
      simpa [List.map_map, Function.comp] using h2
    rw [hsteps, hstep]
    exact hmono

/-- Witness for C7 (amended): the `gwGood` run's published numbers are 1, 2,
matching its plan and monotone from 1. -/
theorem c7_steps_follow_plan_witness :
    monotoneFromOne ((runFinal gwGood stWithImage).restorationSteps.map (fun s => s.step)) =
      true := by
  have h := c7_steps_follow_plan gwGood stWithImage "f" "k"
    [Json.obj [("step", Json.num 1), ("goal", Json.str "g1")],
     Json.obj [("step", Json.num 2), ("goal", Json.str "g2")]] rfl rfl rfl
  exact h.2 (by decide) (by decide)

/-- C8: invoking the run with no image present is a no-op: no state update
is issued and the component state is unchanged. -/
theorem c8_no_image_noop (gw : Gateway) (st : AppState) (h : st.imageFile = none) :
    handleRestore gw st = [] ∧ runFinal gw st = st := by
  have he := handleRestore_noImage gw st h
  exact ⟨he, by
    rw [show runFinal gw st = finalState st (handleRestore gw st) from rfl, he]
    rfl⟩

/-- Witness for C8 at a concrete image-less state. -/
theorem c8_no_image_noop_witness :
    handleRestore gwNoKey stNoImage = [] ∧ runFinal gwNoKey stNoImage = stNoImage :=
  c8_no_image_noop gwNoKey stNoImage rfl

/-- C9: reset always yields status idle, an empty results sequence and no
error message, whatever the prior state, and resetting again changes
nothing. -/
theorem c9_reset_idempotent (st : AppState) :
    (resetState st).status = AppStatus.idle ∧
    (resetState st).restorationSteps = [] ∧
    (resetState st).error = none ∧
    resetState (resetState st) = resetState st :=
  ⟨rfl, rfl, rfl, rfl⟩

/-- Witness for C9 at a concrete terminal (done) state. -/
theorem c9_reset_idempotent_witness :
    (resetState stNoImage).status = AppStatus.idle ∧
    (resetState stNoImage).restorationSteps = [] ∧
    (resetState stNoImage).error = none ∧
    resetState (resetState stNoImage) = resetState stNoImage :=
  c9_reset_idempotent stNoImage

theorem executeImageStep_ok_shape (candidates : Option (List Candidate)) (out : String)
    (h : executeImageStep candidates = Except.ok out) :
    ∃ d, out = "data:image/png;base64," ++ d := by
  rcases candidates with _ | cs
  · simp [executeImageStep] at h
  · rcases cs with _ | ⟨c, rest⟩
    · simp [executeImageStep] at h
    · rcases c with ⟨_ | ct⟩
      · simp [executeImageStep] at h
      · rcases ct with ⟨_ | ps⟩
        · simp [executeImageStep] at h
        · rcases ps with _ | ⟨p, pt⟩
          · simp [executeImageStep] at h
          · rcases p with s | d
            · simp [executeImageStep] at h
            · simp [executeImageStep] at h
              exact ⟨d, h.symm⟩

theorem runOneStep_after (gw : Gateway) (img : String) (ps : PlanStep)
    (p img2 : String) (h : runOneStep gw img ps = Except.ok (p, img2)) :
    ∃ d, img2 = "data:image/png;base64," ++ d := by
  unfold runOneStep at h
  cases h1 : generateStepPrompt (gw.promptResponse img ps.goal) with
  | error m => simp only [h1] at h; exact absurd h (by simp)
  | ok sp =>
    simp only [h1] at h
    cases h2 : executeImageStep (gw.editResponse img sp) with
    | error m => simp only [h2] at h; exact absurd h (by simp)
    | ok ni =>
      simp only [h2, Except.ok.injEq, Prod.mk.injEq] at h
      rw [← h.2]
      exact executeImageStep_ok_shape _ _ h2

theorem newSteps_afterImages (gw : Gateway) :
    ∀ (plan : List PlanStep) (img : String) (s : RestorationStep),
      s ∈ newSteps gw plan img → ∃ d, s.afterImage = "data:image/png;base64," ++ d := by
  intro plan
  induction plan with
  | nil => intro img s hs; simp [newSteps] at hs
  | cons ps rest ih =>
    intro img s hs
    cases h1 : runOneStep gw img ps with
    | error m => simp [newSteps, h1] at hs
    | ok pr =>
      obtain ⟨sp, ni⟩ := pr
      simp only [newSteps, h1, List.mem_cons] at hs
      rcases hs with rfl | hs
      · exact runOneStep_after gw img ps sp ni h1
      · exact ih ni s hs

/-- C10: every per-step image sent back to the Gateway is declared with
media type image/png — whatever the originally uploaded file's type — and
every image an edit step returns (hence every afterImage of a published
step) is a data URL with the fixed PNG prefix. -/
theorem c10_png_media_type :
    (∀ img : String, (stepPromptImagePart img).mimeType = "image/png" ∧
       (imageEditImagePart img).mimeType = "image/png") ∧
    (∀ (resp : Option (List Candidate)) (out : String),
       executeImageStep resp = Except.ok out →
       ∃ d, out = "data:image/png;base64," ++ d) ∧
    (∀ (gw : Gateway) (plan : List PlanStep) (img : String) (s : RestorationStep),
       s ∈ newSteps gw plan img →
       ∃ d, s.afterImage = "data:image/png;base64," ++ d) :=
  ⟨fun _ => ⟨rfl, rfl⟩, executeImageStep_ok_shape, newSteps_afterImages⟩

/-- Witness for C10: the request part for a JPEG-preview image is declared
PNG, and the first completed step of the `gwGood` run has a PNG data-URL
afterImage. -/
theorem c10_png_media_type_witness :
    (stepPromptImagePart "data:image/jpeg;base64,X").mimeType = "image/png" ∧
    (∃ d, goodStep1.afterImage = "data:image/png;base64," ++ d) := by
  refine ⟨(c10_png_media_type.1 "data:image/jpeg;base64,X").1, ?_⟩
  exact c10_png_media_type.2.2 gwGood
    [{ step := 1, goal := "g1" }, { step := 2, goal := "g2" }] "P" goodStep1 (by decide)
